import Mathlib

/-!
Verification of the MySQL database connector of `eveslackkills`
(`src/database/mysql/databaseconnection.go`).

The connector is a thin data-access layer over a relational database.
We embed it shallowly: the database is an explicit state value
(`DBState`), each connector method becomes a Lean function mirroring the
Go control flow, and failures of the underlying driver (network errors,
failed statements, failed metadata retrieval) — which are external to
the repository — are modelled by explicit fault-injection fields on the
connection value.  With all fault fields off, the functions compute the
pure relational semantics of the hand-written SQL.
-/

/-- DBError models the `error` values surfaced by the database driver:
`noRows` is `sql.ErrNoRows` (a `Get`/`Scan` matched zero rows); the
other constructors tag driver-level failures of a query, of a
modification statement, and of `LastInsertId` retrieval. -/
inductive DBError where
  | noRows
  | queryError
  | execError
  | lastInsertIdError
  deriving DecidableEq, Repr

/-- CorporationRow is one row of the `corporations` table, with the
columns named in the connector's SQL:
`corporations(id, evecorporationid, lastkillid, lastlossid, name, killcomment, losscomment)`. -/
structure CorporationRow where
  id : Int
  evecorporationid : Int
  lastkillid : Int
  lastlossid : Int
  name : String
  killcomment : String
  losscomment : String
  deriving DecidableEq, Repr

/-- IgnoredRegionRow is one row of the dependent table
`ignoredregions(corporationID, regionid)`. -/
structure IgnoredRegionRow where
  corporationID : Int
  regionid : Int
  deriving DecidableEq, Repr

/-- DBState is the persisted state the connector's SQL reads and
writes: the `corporations` table, the dependent `ignoredregions` table,
the static `mapSolarSystems(solarSystemID, regionID)` reference table,
and the auto-increment counter that assigns `corporations.id` on
INSERT.  Row order stands in for the storage's natural order. -/
structure DBState where
  corporations : List CorporationRow
  ignoredregions : List IgnoredRegionRow
  mapSolarSystems : List (Int × Int)
  nextId : Int
  deriving DecidableEq, Repr

/-- Corporation is the in-memory entity `models.Corporation` (the
`models` package itself is outside the shown connector file; its fields
are the ones the connector reads and writes: the selected columns plus
the `IgnoredRegions` collection populated by the secondary load). -/
structure Corporation where
  ID : Int
  EVECorporationID : Int
  LastKillID : Int
  LastLossID : Int
  Name : String
  KillComment : String
  LossComment : String
  IgnoredRegions : List Int
  deriving DecidableEq, Repr

/-- rowToCorporation is the marshalling `sqlx` performs for
`SELECT id, evecorporationid, lastkillid, lastlossid, name, killcomment, losscomment`:
each selected column fills the corresponding struct field; the
unselected `IgnoredRegions` field keeps its zero value (empty). -/
def rowToCorporation (r : CorporationRow) : Corporation :=
  { ID := r.id
    EVECorporationID := r.evecorporationid
    LastKillID := r.lastkillid
    LastLossID := r.lastlossid
    Name := r.name
    KillComment := r.killcomment
    LossComment := r.losscomment
    IgnoredRegions := [] }

/-- regionsFor computes the result set of
`SELECT regionid FROM ignoredregions WHERE corporationID=?`. -/
def regionsFor (db : DBState) (corporationID : Int) : List Int :=
  (db.ignoredregions.filter (fun r => r.corporationID = corporationID)).map
    (fun r => r.regionid)

/-- DatabaseConnection models the connector value: the database state
behind the live connection handle, plus one fault-injection flag per
driver call site, standing for the driver-level failures (network,
malformed statement, metadata) that the Go code checks for.  All flags
`false` is the fault-free run. -/
structure DatabaseConnection where
  db : DBState
  selectCorporationsFail : Bool
  selectRegionsFail : Int → Bool
  getCorporationFail : Bool
  execUpdateFail : Bool
  execInsertFail : Bool
  lastInsertIdFail : Bool

/-- SqlValue is a dynamically-typed cell value as `RawQuery` returns
them (`interface\x7b\x7d` in the source). -/
inductive SqlValue where
  | intV (i : Int)
  | strV (s : String)
  | nullV
  deriving DecidableEq, Repr

/-- QueryResult is what a successful `c.conn.Query` hands back: the
column names available from `rows.Columns()` and the data rows the
cursor will yield. -/
structure QueryResult where
  columns : List String
  rows : List (List SqlValue)
  deriving DecidableEq, Repr

/-- scanRow models `rows.Scan(valuePtrs...)` into `count` slots: when
the row's arity matches, the values are taken; otherwise `Scan` errors,
the error is discarded by the source (`rows.Scan` result unchecked) and
the slots keep their zero value (nil interface, modelled `nullV`). -/
def scanRow (count : Nat) (vals : List SqlValue) : List SqlValue :=
  if vals.length = count then vals else List.replicate count SqlValue.nullV

/-- RawQuery embeds `DatabaseConnection.RawQuery`.  The argument `q` is
the outcome of `c.conn.Query(query, v...)`; `columnsFail` says whether
`rows.Columns()` fails (the source discards that error with
`columns, _ := rows.Columns()`, leaving `columns` nil).  The first
component is the returned slice of column-name/value rows (`none` on
error), the second the returned error. -/
def RawQuery (q : Except DBError QueryResult) (columnsFail : Bool) :
    Option (List (List (String × SqlValue))) × Option DBError :=
  match q with
  | Except.error e => (none, some e)
  | Except.ok res =>
      let columns := if columnsFail then [] else res.columns
      let count := columns.length
      (some (res.rows.map (fun vals => columns.zip (scanRow count vals))), none)

/-- LoadAllIgnoredRegionsForCorporation embeds the method of the same
name: one `Select` over `ignoredregions` filtered by corporation ID,
returning the (possibly empty) list of region IDs, or the driver's
error when the select fails. -/
def LoadAllIgnoredRegionsForCorporation (c : DatabaseConnection)
    (corporationID : Int) : Except DBError (List Int) :=
  if c.selectRegionsFail corporationID then Except.error DBError.queryError
  else Except.ok (regionsFor c.db corporationID)

/-- connGetCorporation models
`c.conn.Get(corporation, "SELECT ... FROM corporations WHERE id=?", corporationID)`:
a driver failure surfaces as an error, zero matching rows surface as
`sql.ErrNoRows`, otherwise the first matching row is marshalled. -/
def connGetCorporation (c : DatabaseConnection) (corporationID : Int) :
    Except DBError Corporation :=
  if c.getCorporationFail then Except.error DBError.queryError
  else
    match c.db.corporations.find? (fun r => r.id = corporationID) with
    | none => Except.error DBError.noRows
    | some r => Except.ok (rowToCorporation r)

/-- LoadCorporation embeds the method of the same name: `Get` the row
by internal ID, then load the ignored regions for the loaded row's ID
and store them into the entity; any failure aborts the call with that
error and no entity. -/
def LoadCorporation (c : DatabaseConnection) (corporationID : Int) :
    Except DBError Corporation :=
  match connGetCorporation c corporationID with
  | Except.error e => Except.error e
  | Except.ok corporation =>
      match LoadAllIgnoredRegionsForCorporation c corporation.ID with
      | Except.error e => Except.error e
      | Except.ok ignoredRegions =>
          Except.ok { corporation with IgnoredRegions := ignoredRegions }

/-- loadRegionsInto embeds the `for _, corporation := range corporations`
loop of `LoadAllCorporations`: in order, each corporation's ignored
regions are loaded and stored into it; the first failing secondary load
aborts the whole call with its error. -/
def loadRegionsInto (c : DatabaseConnection) :
    List Corporation → Except DBError (List Corporation)
  | [] => Except.ok []
  | corporation :: rest =>
      match LoadAllIgnoredRegionsForCorporation c corporation.ID with
      | Except.error e => Except.error e
      | Except.ok ignoredRegions =>
          match loadRegionsInto c rest with
          | Except.error e => Except.error e
          | Except.ok rest' =>
              Except.ok ({ corporation with IgnoredRegions := ignoredRegions } :: rest')

/-- LoadAllCorporations embeds the method of the same name: one
`Select` of all corporation rows (core scalar fields), then the
secondary per-corporation ignored-regions loads; either failure aborts
the whole call. -/
def LoadAllCorporations (c : DatabaseConnection) :
    Except DBError (List Corporation) :=
  match (if c.selectCorporationsFail then Except.error DBError.queryError
         else Except.ok (c.db.corporations.map rowToCorporation)) with
  | Except.error e => Except.error e
  | Except.ok corporations => loadRegionsInto c corporations

/-- QueryRegionID embeds the method of the same name:
`QueryRowx("SELECT regionID FROM mapSolarSystems WHERE solarSystemID=?")`
followed by `Scan`; with no matching row `Scan` yields `sql.ErrNoRows`
and the method returns `-1` together with that error. -/
def QueryRegionID (c : DatabaseConnection) (solarSystemID : Int) :
    Int × Option DBError :=
  match c.db.mapSolarSystems.find? (fun p => p.fst = solarSystemID) with
  | none => (-1, some DBError.noRows)
  | some p => (p.snd, none)

/-- SaveResult packages the observable outcome of `SaveCorporation`:
the database state after the call, the in-memory entity after the call
(the Go code mutates `corporation.ID` through the pointer), the
returned entity pointer (`none` when the Go code returns nil), and the
returned error. -/
structure SaveResult where
  db : DBState
  corporation : Corporation
  ret : Option Corporation
  err : Option DBError
  deriving DecidableEq, Repr

/-- SaveCorporation embeds the method of the same name.  `ID > 0`
selects the UPDATE of `evecorporationid, lastkillid, lastlossid` keyed
by `id`; otherwise the INSERT of those three columns runs (the
remaining columns keep their schema defaults, modelled empty), the
storage-assigned `LastInsertId` is retrieved and written back into the
entity's `ID` field, and that entity is returned.  Each failing step
returns nil and the error; a failed statement leaves the state
unchanged, a failed `LastInsertId` follows a committed INSERT. -/
def SaveCorporation (c : DatabaseConnection) (corporation : Corporation) :
    SaveResult :=
  if corporation.ID > 0 then
    if c.execUpdateFail then ⟨c.db, corporation, none, some DBError.execError⟩
    else
      ⟨{ c.db with
           corporations := c.db.corporations.map (fun r =>
             if r.id = corporation.ID then
               { r with
                   evecorporationid := corporation.EVECorporationID
                   lastkillid := corporation.LastKillID
                   lastlossid := corporation.LastLossID }
             else r) },
        corporation, some corporation, none⟩
  else
    if c.execInsertFail then ⟨c.db, corporation, none, some DBError.execError⟩
    else
      let inserted : DBState :=
        { c.db with
            corporations := c.db.corporations ++
              [⟨c.db.nextId, corporation.EVECorporationID,
                corporation.LastKillID, corporation.LastLossID, "", "", ""⟩]
            nextId := c.db.nextId + 1 }
      if c.lastInsertIdFail then
        ⟨inserted, corporation, none, some DBError.lastInsertIdError⟩
      else
        let corporation' := { corporation with ID := c.db.nextId }
        ⟨inserted, corporation', some corporation', none⟩

/-! Concrete fixtures used by the witnesses: a small database with one
corporation (internal ID 1, external ID 98765, two ignored regions),
one solar-system mapping, and the auto-increment counter at 2. -/

/-- dbW is the concrete database state of the witnesses. -/
def dbW : DBState :=
  { corporations := [⟨1, 98765, 0, 0, "TestCorp", "kc", "lc"⟩]
    ignoredregions := [⟨1, 10000002⟩, ⟨1, 10000003⟩]
    mapSolarSystems := [(30000142, 10000002)]
    nextId := 2 }

/-- connOk is a fault-free connection over `dbW`. -/
def connOk : DatabaseConnection :=
  { db := dbW
    selectCorporationsFail := false
    selectRegionsFail := fun _ => false
    getCorporationFail := false
    execUpdateFail := false
    execInsertFail := false
    lastInsertIdFail := false }

-- Equality of driver results is decidable, so witnesses can be
-- checked by evaluation.
deriving instance DecidableEq for Except

/-- corpNeg is an in-memory entity carrying a negative internal ID. -/
def corpNeg : Corporation := ⟨-5, 555, 10, 20, "Neg", "", "", []⟩

/-- corpPos is an in-memory entity carrying the assigned internal ID 1. -/
def corpPos : Corporation := ⟨1, 98766, 42, 7, "Pos", "", "", []⟩

/-- connUpdFail is `connOk` with the UPDATE statement failing. -/
def connUpdFail : DatabaseConnection := { connOk with execUpdateFail := true }

/-- corpNew is an in-memory entity whose internal ID is still unset. -/
def corpNew : Corporation := ⟨0, 98765, 0, 0, "", "", "", []⟩

/-- queryExecutionFailed says whether the driver call
`c.conn.Query(query, v...)` itself failed. -/
def queryExecutionFailed : Except DBError QueryResult → Bool
  | Except.error _ => true
  | Except.ok _ => false

/-- connRegFail is `connOk` with every secondary ignored-regions select
failing. -/
def connRegFail : DatabaseConnection := { connOk with selectRegionsFail := fun _ => true }

/-- corpLoaded is the entity `LoadCorporation` yields for internal ID 1
over `dbW`. -/
def corpLoaded : Corporation :=
  ⟨1, 98765, 0, 0, "TestCorp", "kc", "lc", [10000002, 10000003]⟩

/-- C3: for every solar-system ID with no matching row in the
`mapSolarSystems` reference table, `QueryRegionID` returns the sentinel
value `-1` together with a non-nil error (the underlying no-rows
error). -/
theorem C3_queryRegionID_missing (c : DatabaseConnection) (solarSystemID : Int)
    (h : ∀ p ∈ c.db.mapSolarSystems, p.fst ≠ solarSystemID) :
    QueryRegionID c solarSystemID = (-1, some DBError.noRows) := by
  unfold QueryRegionID
  have hnone : c.db.mapSolarSystems.find? (fun p => p.fst = solarSystemID) = none := by
    rw [List.find?_eq_none]
    intro p hp
    simpa using h p hp
  rw [hnone]

/-- Witness for C3 at solar-system ID 99, absent from `dbW`. -/
theorem C3_witness : QueryRegionID connOk 99 = (-1, some DBError.noRows) :=
  C3_queryRegionID_missing connOk 99 (by decide)

/-- C6: for every internal ID with no matching `corporations` row (and
the driver itself not failing), `LoadCorporation` returns the
underlying no-rows error and no entity. -/
theorem C6_loadCorporation_missing (c : DatabaseConnection) (corporationID : Int)
    (hok : c.getCorporationFail = false)
    (h : ∀ r ∈ c.db.corporations, r.id ≠ corporationID) :
    LoadCorporation c corporationID = Except.error DBError.noRows := by
  unfold LoadCorporation connGetCorporation
  rw [hok]
  have hnone : c.db.corporations.find? (fun r => r.id = corporationID) = none := by
    rw [List.find?_eq_none]
    intro r hr
    simpa using h r hr
  simp [hnone]

/-- Witness for C6 at internal ID 7, absent from `dbW`. -/
theorem C6_witness : LoadCorporation connOk 7 = Except.error DBError.noRows :=
  C6_loadCorporation_missing connOk 7 rfl (by decide)

/-- C7: for every organization ID with zero dependent `ignoredregions`
rows (and the driver itself not failing), the secondary load returns an
empty collection and no error. -/
theorem C7_loadIgnoredRegions_empty (c : DatabaseConnection) (corporationID : Int)
    (hok : c.selectRegionsFail corporationID = false)
    (h : ∀ r ∈ c.db.ignoredregions, r.corporationID ≠ corporationID) :
    LoadAllIgnoredRegionsForCorporation c corporationID = Except.ok [] := by
  unfold LoadAllIgnoredRegionsForCorporation regionsFor
  rw [hok]
  have hnil : c.db.ignoredregions.filter (fun r => r.corporationID = corporationID) = [] := by
    rw [List.filter_eq_nil_iff]
    intro r hr
    simpa using h r hr
  simp [hnil]

/-- Witness for C7 at organization ID 42, which owns no region rows in
`dbW`. -/
theorem C7_witness : LoadAllIgnoredRegionsForCorporation connOk 42 = Except.ok [] :=
  C7_loadIgnoredRegions_empty connOk 42 rfl (by decide)

/-- C9: `SaveCorporation` takes the INSERT branch for every
non-positive in-memory ID (the source tests `corporation.ID > 0`), not
only the zero value: a non-positive ID appends a fresh row and assigns
the new identifier, while only a strictly positive ID runs the UPDATE,
leaving the row count unchanged. -/
theorem C9_insert_branch_nonpositive (c : DatabaseConnection) (corporation : Corporation)
    (hu : c.execUpdateFail = false) (hi : c.execInsertFail = false)
    (hl : c.lastInsertIdFail = false) :
    (corporation.ID ≤ 0 →
      (SaveCorporation c corporation).db.corporations =
        c.db.corporations ++
          [⟨c.db.nextId, corporation.EVECorporationID, corporation.LastKillID,
            corporation.LastLossID, "", "", ""⟩] ∧
      (SaveCorporation c corporation).corporation.ID = c.db.nextId)
    ∧ (0 < corporation.ID →
      (SaveCorporation c corporation).db.corporations.length =
        c.db.corporations.length) := by
  constructor
  · intro hle
    have hnot : ¬ corporation.ID > 0 := by omega
    simp [SaveCorporation, hnot, hi, hl]
  · intro hpos
    simp [SaveCorporation, hpos, hu]

/-- Witness for C9: saving `corpNeg` (ID = -5) over `dbW` appends a row
with the fresh identifier 2 and writes 2 back into the entity. -/
theorem C9_witness :
    (SaveCorporation connOk corpNeg).db.corporations =
      connOk.db.corporations ++
        [⟨connOk.db.nextId, corpNeg.EVECorporationID, corpNeg.LastKillID,
          corpNeg.LastLossID, "", "", ""⟩] ∧
    (SaveCorporation connOk corpNeg).corporation.ID = connOk.db.nextId :=
  (C9_insert_branch_nonpositive connOk corpNeg rfl rfl rfl).1 (by decide)

/-- C10: whenever a step of `SaveCorporation` fails — the UPDATE on the
positive-ID branch, or the INSERT or the `LastInsertId` retrieval on
the other branch — the call returns a nil entity together with a
non-nil error, and the in-memory entity's ID field is unchanged. -/
theorem C10_save_failure (c : DatabaseConnection) (corporation : Corporation)
    (h : (0 < corporation.ID ∧ c.execUpdateFail = true) ∨
         (corporation.ID ≤ 0 ∧ (c.execInsertFail = true ∨ c.lastInsertIdFail = true))) :
    (SaveCorporation c corporation).ret = none ∧
    (SaveCorporation c corporation).err ≠ none ∧
    (SaveCorporation c corporation).corporation.ID = corporation.ID := by
  rcases h with ⟨hpos, hf⟩ | ⟨hle, hf⟩
  · simp [SaveCorporation, hpos, hf]
  · have hnot : ¬ corporation.ID > 0 := by omega
    rcases hf with hf | hf
    · simp [SaveCorporation, hnot, hf]
    · rcases hb : c.execInsertFail with _ | _ <;>
        simp [SaveCorporation, hnot, hf, hb]

/-- Witness for C10: with the UPDATE failing, saving `corpPos` returns
nil plus an error and leaves the ID at 1. -/
theorem C10_witness :
    (SaveCorporation connUpdFail corpPos).ret = none ∧
    (SaveCorporation connUpdFail corpPos).err ≠ none ∧
    (SaveCorporation connUpdFail corpPos).corporation.ID = corpPos.ID :=
  C10_save_failure connUpdFail corpPos (Or.inl ⟨by decide, rfl⟩)

/-- C8: on the positive-ID branch, `SaveCorporation` touches only the
external-ID and cursor columns of the rows keyed by that ID: the
`ignoredregions` table and the reference table are unchanged, every
row keeps its `id`, `name` and comment columns, and rows with a
different `id` are unchanged entirely. -/
theorem C8_update_frame (c : DatabaseConnection) (corporation : Corporation)
    (hpos : 0 < corporation.ID) (hu : c.execUpdateFail = false) :
    (SaveCorporation c corporation).db.ignoredregions = c.db.ignoredregions ∧
    (SaveCorporation c corporation).db.mapSolarSystems = c.db.mapSolarSystems ∧
    List.Forall₂ (fun r r' =>
        r'.id = r.id ∧ r'.name = r.name ∧ r'.killcomment = r.killcomment ∧
        r'.losscomment = r.losscomment ∧ (r.id ≠ corporation.ID → r' = r))
      c.db.corporations (SaveCorporation c corporation).db.corporations := by
  refine ⟨by simp [SaveCorporation, hpos, hu], by simp [SaveCorporation, hpos, hu], ?_⟩
  have hdb : (SaveCorporation c corporation).db.corporations =
      c.db.corporations.map (fun r =>
        if r.id = corporation.ID then
          { r with
              evecorporationid := corporation.EVECorporationID
              lastkillid := corporation.LastKillID
              lastlossid := corporation.LastLossID }
        else r) := by
    simp [SaveCorporation, hpos, hu]
  rw [hdb, List.forall₂_map_right_iff, List.forall₂_same]
  intro r hr
  by_cases hid : r.id = corporation.ID
  · simp [hid]
  · simp [hid]

/-- Witness for C8: updating `corpPos` over `dbW` leaves the dependent
tables and the identity/name/comment columns of row 1 unchanged. -/
theorem C8_witness :
    (SaveCorporation connOk corpPos).db.ignoredregions = connOk.db.ignoredregions ∧
    (SaveCorporation connOk corpPos).db.mapSolarSystems = connOk.db.mapSolarSystems ∧
    List.Forall₂ (fun r r' =>
        r'.id = r.id ∧ r'.name = r.name ∧ r'.killcomment = r.killcomment ∧
        r'.losscomment = r.losscomment ∧ (r.id ≠ corpPos.ID → r' = r))
      connOk.db.corporations (SaveCorporation connOk corpPos).db.corporations :=
  C8_update_frame connOk corpPos (by decide) rfl

/-- C1: `SaveCorporation` dispatches on the in-memory internal ID.
With ID > 0 it runs the UPDATE of the external ID and the two cursors
keyed by that ID and returns the entity; with ID unset (zero) it runs
the INSERT of those three values, retrieves the storage-assigned
identifier, writes it back into the entity's ID field, and returns that
entity. -/
theorem C1_save_dispatch (c : DatabaseConnection) (corporation : Corporation)
    (hu : c.execUpdateFail = false) (hi : c.execInsertFail = false)
    (hl : c.lastInsertIdFail = false) :
    (0 < corporation.ID →
      SaveCorporation c corporation =
        ⟨{ c.db with
             corporations := c.db.corporations.map (fun r =>
               if r.id = corporation.ID then
                 { r with
                     evecorporationid := corporation.EVECorporationID
                     lastkillid := corporation.LastKillID
                     lastlossid := corporation.LastLossID }
               else r) },
          corporation, some corporation, none⟩)
    ∧ (corporation.ID = 0 →
      SaveCorporation c corporation =
        ⟨{ c.db with
             corporations := c.db.corporations ++
               [⟨c.db.nextId, corporation.EVECorporationID, corporation.LastKillID,
                 corporation.LastLossID, "", "", ""⟩]
             nextId := c.db.nextId + 1 },
          { corporation with ID := c.db.nextId },
          some { corporation with ID := c.db.nextId }, none⟩) := by
  constructor
  · intro hpos
    simp [SaveCorporation, hpos, hu]
  · intro hzero
    have hnot : ¬ corporation.ID > 0 := by omega
    simp [SaveCorporation, hnot, hi, hl]

/-- Witness for C1: saving the unset-ID entity `corpNew` over `dbW`
inserts the row with fresh identifier 2 and returns the entity with ID
2 written back. -/
theorem C1_witness :
    SaveCorporation connOk corpNew =
      ⟨{ connOk.db with
           corporations := connOk.db.corporations ++
             [⟨connOk.db.nextId, corpNew.EVECorporationID, corpNew.LastKillID,
               corpNew.LastLossID, "", "", ""⟩]
           nextId := connOk.db.nextId + 1 },
        { corpNew with ID := connOk.db.nextId },
        some { corpNew with ID := connOk.db.nextId }, none⟩ :=
  (C1_save_dispatch connOk corpNew rfl rfl rfl).2 rfl

/-- Counterexample to C4 as stated: the claim requires an error exactly
when query execution or result-metadata retrieval fails, but the source
discards the `rows.Columns()` error (`columns, _ := rows.Columns()`),
so a metadata-retrieval failure after a successful one-row query yields
no error (the row comes back as an empty mapping instead). -/
theorem C4_counterexample :
    ¬ (∀ (q : Except DBError QueryResult) (columnsFail : Bool),
        (RawQuery q columnsFail).snd ≠ none ↔
          (queryExecutionFailed q = true ∨ columnsFail = true)) := by
  intro h
  exact (h (Except.ok ⟨["a"], [[SqlValue.intV 5]]⟩) true).mpr (Or.inr rfl) (by decide)

/-- C4 amended: `RawQuery` returns an empty sequence with no error for
every successfully executed query yielding no rows, and returns an
error exactly when query execution fails; a result-metadata retrieval
failure is silently discarded. -/
theorem C4_rawQuery_amended (q : Except DBError QueryResult) (columnsFail : Bool)
    (res : QueryResult) (hres : res.rows = []) :
    ((RawQuery q columnsFail).snd ≠ none ↔ queryExecutionFailed q = true)
    ∧ RawQuery (Except.ok res) columnsFail = (some [], none) := by
  constructor
  · cases q <;> simp [RawQuery, queryExecutionFailed]
  · simp [RawQuery, hres]

/-- Witness for C4 at a concrete empty one-column result: no error and
an empty sequence. -/
theorem C4_witness :
    (((RawQuery (Except.ok ⟨["a"], []⟩) false).snd ≠ none ↔
        queryExecutionFailed (Except.ok ⟨["a"], []⟩) = true)
     ∧ RawQuery (Except.ok ⟨["a"], []⟩) false = (some [], none)) :=
  C4_rawQuery_amended (Except.ok ⟨["a"], []⟩) false ⟨["a"], []⟩ rfl

/-- Helper: a successful secondary load returns exactly the dependent
`ignoredregions` rows for the queried organization ID. -/
theorem loadAllIgnoredRegions_ok (c : DatabaseConnection) (corporationID : Int)
    (regs : List Int)
    (h : LoadAllIgnoredRegionsForCorporation c corporationID = Except.ok regs) :
    regs = regionsFor c.db corporationID := by
  unfold LoadAllIgnoredRegionsForCorporation at h
  cases hf : c.selectRegionsFail corporationID <;> rw [hf] at h <;> simp at h
  exact h.symm

/-- Helper: every corporation in a successful run of the secondary-load
loop carries exactly its dependent region rows. -/
theorem loadRegionsInto_ok_regions (c : DatabaseConnection) (l : List Corporation) :
    ∀ out, loadRegionsInto c l = Except.ok out →
      ∀ x ∈ out, x.IgnoredRegions = regionsFor c.db x.ID := by
  induction l with
  | nil =>
      intro out h x hx
      simp [loadRegionsInto] at h
      subst h
      simp at hx
  | cons corporation rest ih =>
      intro out h x hx
      unfold loadRegionsInto at h
      cases hreg : LoadAllIgnoredRegionsForCorporation c corporation.ID with
      | error e => rw [hreg] at h; simp at h
      | ok regs =>
          rw [hreg] at h
          cases hrest : loadRegionsInto c rest with
          | error e => rw [hrest] at h; simp at h
          | ok rest' =>
              rw [hrest] at h
              simp at h
              subst h
              rcases List.mem_cons.mp hx with hx | hx
              · subst hx
                simpa using loadAllIgnoredRegions_ok c corporation.ID regs hreg
              · exact ih rest' hrest x hx

/-- Helper: a secondary-load fault for any corporation in the list
aborts the loop with an error. -/
theorem loadRegionsInto_fault (c : DatabaseConnection) (l : List Corporation)
    (h : ∃ x ∈ l, c.selectRegionsFail x.ID = true) :
    ∃ e, loadRegionsInto c l = Except.error e := by
  induction l with
  | nil => simp at h
  | cons corporation rest ih =>
      by_cases hf : c.selectRegionsFail corporation.ID = true
      · refine ⟨DBError.queryError, ?_⟩
        unfold loadRegionsInto
        simp [LoadAllIgnoredRegionsForCorporation, hf]
      · have hf' : c.selectRegionsFail corporation.ID = false := by
          simpa using hf
        have htail : ∃ x ∈ rest, c.selectRegionsFail x.ID = true := by
          rcases h with ⟨x, hx, hfx⟩
          rcases List.mem_cons.mp hx with rfl | hx
          · exact absurd hfx hf
          · exact ⟨x, hx, hfx⟩
        rcases ih htail with ⟨e, he⟩
        refine ⟨e, ?_⟩
        unfold loadRegionsInto
        simp [LoadAllIgnoredRegionsForCorporation, hf', he]

/-- Helper: a successfully loaded single corporation carries exactly
its dependent region rows. -/
theorem loadCorporation_ok_regions (c : DatabaseConnection) (corporationID : Int)
    (corporation : Corporation)
    (h : LoadCorporation c corporationID = Except.ok corporation) :
    corporation.IgnoredRegions = regionsFor c.db corporation.ID := by
  unfold LoadCorporation at h
  cases hget : connGetCorporation c corporationID with
  | error e => rw [hget] at h; simp at h
  | ok corp0 =>
      rw [hget] at h
      dsimp only at h
      cases hreg : LoadAllIgnoredRegionsForCorporation c corp0.ID with
      | error e => rw [hreg] at h; simp at h
      | ok regs =>
          rw [hreg] at h
          simp at h
          subst h
          simpa using loadAllIgnoredRegions_ok c corp0.ID regs hreg

/-- C2: every organization returned by a successful `LoadAllCorporations`
or `LoadCorporation` call has `IgnoredRegions` equal to exactly the
dependent `ignoredregions` rows for its ID, and a failure of the
primary select or of any secondary ignored-regions load makes the whole
call return an error with no result, so no returned organization is
partially populated. -/
theorem C2_ignoredRegions_exact (c : DatabaseConnection) (corporationID : Int)
    (corps : List Corporation) (corporation : Corporation) :
    (LoadAllCorporations c = Except.ok corps →
      ∀ x ∈ corps, x.IgnoredRegions = regionsFor c.db x.ID)
    ∧ (LoadCorporation c corporationID = Except.ok corporation →
      corporation.IgnoredRegions = regionsFor c.db corporation.ID)
    ∧ (c.selectCorporationsFail = true →
      ∃ e, LoadAllCorporations c = Except.error e)
    ∧ ((∃ r ∈ c.db.corporations, c.selectRegionsFail r.id = true) →
      ∃ e, LoadAllCorporations c = Except.error e)
    ∧ (c.getCorporationFail = true →
      ∃ e, LoadCorporation c corporationID = Except.error e)
    ∧ ((∃ r ∈ c.db.corporations, r.id = corporationID ∧
          c.selectRegionsFail r.id = true) →
      ∃ e, LoadCorporation c corporationID = Except.error e) := by
  refine ⟨?_, loadCorporation_ok_regions c corporationID corporation, ?_, ?_, ?_, ?_⟩
  · intro h x hx
    unfold LoadAllCorporations at h
    cases hsel : c.selectCorporationsFail with
    | true => rw [hsel] at h; simp at h
    | false =>
        rw [hsel] at h
        simp at h
        exact loadRegionsInto_ok_regions c _ corps h x hx
  · intro hsel
    exact ⟨DBError.queryError, by simp [LoadAllCorporations, hsel]⟩
  · intro hex
    have hmap : ∃ x ∈ c.db.corporations.map rowToCorporation,
        c.selectRegionsFail x.ID = true := by
      rcases hex with ⟨r, hr, hf⟩
      exact ⟨rowToCorporation r, List.mem_map_of_mem _ hr, hf⟩
    rcases loadRegionsInto_fault c _ hmap with ⟨e, he⟩
    cases hsel : c.selectCorporationsFail with
    | true => exact ⟨DBError.queryError, by simp [LoadAllCorporations, hsel]⟩
    | false => exact ⟨e, by simp [LoadAllCorporations, hsel, he]⟩
  · intro hget
    exact ⟨DBError.queryError, by simp [LoadCorporation, connGetCorporation, hget]⟩
  · intro hex
    by_cases hget : c.getCorporationFail = true
    · exact ⟨DBError.queryError, by simp [LoadCorporation, connGetCorporation, hget]⟩
    · have hget' : c.getCorporationFail = false := by simpa using hget
      rcases hex with ⟨r, hr, hid, hf⟩
      cases hfind : c.db.corporations.find? (fun row => row.id = corporationID) with
      | none =>
          exact absurd hid (by simpa using List.find?_eq_none.mp hfind r hr)
      | some r0 =>
          have hr0 : r0.id = corporationID := by
            simpa using List.find?_some hfind
          have hf0 : c.selectRegionsFail corporationID = true := hid ▸ hf
          refine ⟨DBError.queryError, ?_⟩
          simp [LoadCorporation, connGetCorporation, hget', hfind,
                LoadAllIgnoredRegionsForCorporation, rowToCorporation, hr0, hf0]

/-- Witness for C2: the corporation loaded from `dbW` carries exactly
its two dependent region rows, and with the secondary load failing the
whole `LoadAllCorporations` call errors. -/
theorem C2_witness :
    corpLoaded.IgnoredRegions = regionsFor connOk.db corpLoaded.ID ∧
    (∃ e, LoadAllCorporations connRegFail = Except.error e) :=
  ⟨(C2_ignoredRegions_exact connOk 1 [] corpLoaded).2.1 (by decide),
   (C2_ignoredRegions_exact connRegFail 1 [] corpLoaded).2.2.2.1
     ⟨⟨1, 98765, 0, 0, "TestCorp", "kc", "lc"⟩, by decide, rfl⟩⟩

/-- C5: saving a new entity (ID unset) and then loading by the internal
identifier written back by the save yields an organization whose
external ID and two cursors equal the values that were saved.  The
freshness hypothesis states the auto-increment invariant (the counter
exceeds every assigned ID); the remaining hypotheses say the driver
itself does not fail. -/
theorem C5_roundtrip (c : DatabaseConnection) (corporation : Corporation)
    (hID : corporation.ID = 0)
    (hfresh : ∀ r ∈ c.db.corporations, r.id ≠ c.db.nextId)
    (hi : c.execInsertFail = false) (hl : c.lastInsertIdFail = false)
    (hget : c.getCorporationFail = false)
    (hreg : c.selectRegionsFail c.db.nextId = false) :
    ∃ loaded : Corporation,
      LoadCorporation { c with db := (SaveCorporation c corporation).db }
          (SaveCorporation c corporation).corporation.ID = Except.ok loaded ∧
      loaded.EVECorporationID = corporation.EVECorporationID ∧
      loaded.LastKillID = corporation.LastKillID ∧
      loaded.LastLossID = corporation.LastLossID := by
  have hnot : ¬ corporation.ID > 0 := by omega
  have hsave : SaveCorporation c corporation =
      ⟨{ c.db with
           corporations := c.db.corporations ++
             [⟨c.db.nextId, corporation.EVECorporationID, corporation.LastKillID,
               corporation.LastLossID, "", "", ""⟩]
           nextId := c.db.nextId + 1 },
        { corporation with ID := c.db.nextId },
        some { corporation with ID := c.db.nextId }, none⟩ := by
    simp [SaveCorporation, hnot, hi, hl]
  rw [hsave]
  refine ⟨{ ID := c.db.nextId, EVECorporationID := corporation.EVECorporationID,
            LastKillID := corporation.LastKillID, LastLossID := corporation.LastLossID,
            Name := "", KillComment := "", LossComment := "",
            IgnoredRegions := regionsFor c.db c.db.nextId }, ?_, rfl, rfl, rfl⟩
  have hfind : (c.db.corporations ++
      [(⟨c.db.nextId, corporation.EVECorporationID, corporation.LastKillID,
        corporation.LastLossID, "", "", ""⟩ : CorporationRow)]).find?
        (fun r => r.id = c.db.nextId) = some
          ⟨c.db.nextId, corporation.EVECorporationID, corporation.LastKillID,
            corporation.LastLossID, "", "", ""⟩ := by
    rw [List.find?_append]
    have h1 : c.db.corporations.find? (fun r => r.id = c.db.nextId) = none := by
      rw [List.find?_eq_none]
      intro r hr
      simpa using hfresh r hr
    rw [h1]
    simp
  simp [LoadCorporation, connGetCorporation, hget, hfind,
        LoadAllIgnoredRegionsForCorporation, hreg, rowToCorporation, regionsFor]

/-- Witness for C5: saving `corpNew` over `dbW` and reloading by the
assigned identifier 2 reproduces external ID 98765 and both cursors. -/
theorem C5_witness :
    ∃ loaded : Corporation,
      LoadCorporation { connOk with db := (SaveCorporation connOk corpNew).db }
          (SaveCorporation connOk corpNew).corporation.ID = Except.ok loaded ∧
      loaded.EVECorporationID = corpNew.EVECorporationID ∧
      loaded.LastKillID = corpNew.LastKillID ∧
      loaded.LastLossID = corpNew.LastLossID :=
  C5_roundtrip connOk corpNew rfl (by decide) rfl rfl rfl rfl
